import Mathlib

/-!
Verification of the `mdex` partition-listing tool (`src/main.rs`).

The tool loads an Iceberg table, prints schema information, and aggregates
the distinct partition values per partition-specification id over the
manifests reachable from the current snapshot, rendering a plain-text
report.  We embed the data model and the `list_partitions` / `main`
control flow as pure Lean functions: stdout is an accumulated list of
lines, `try_ok!` early returns become an `Outcome.earlyReturn`, and
`unwrap` / out-of-bounds indexing panics become `Outcome.panicked`.
-/

/-- A partition value (`iceberg::spec::Literal`): a discriminated value with
equality and hashing, so distinct values can be deduplicated. -/
inductive Literal where
  | nullLit : Literal
  | intLit (n : Int) : Literal
  | strLit (s : String) : Literal
deriving DecidableEq

/-- Status of a manifest entry (`iceberg::spec::ManifestStatus`). -/
inductive ManifestStatus where
  | added : ManifestStatus
  | existing : ManifestStatus
  | deleted : ManifestStatus
deriving DecidableEq

/-- A partition transform; rendered in the report with `format!("{:?}", _)`. -/
inductive Transform where
  | identity : Transform
  | day : Transform
  | bucket (n : Nat) : Transform
  | void : Transform
deriving DecidableEq

/-- Debug rendering of a transform, as Rust's derived `Debug` would print it. -/
def Transform.debugStr : Transform → String
  | .identity => "Identity"
  | .day => "Day"
  | .bucket n => "Bucket(" ++ toString n ++ ")"
  | .void => "Void"

/-- One field of a partition spec: stable field id, name, transform. -/
structure PartitionField where
  field_id : Int
  name : String
  transform : Transform
deriving DecidableEq

/-- A partition specification: id plus ordered fields. -/
structure PartitionSpec where
  spec_id : Int
  fields : List PartitionField
deriving DecidableEq

/-- A data file; only its partition tuple (positionally aligned values) is
used by the aggregation. -/
structure DataFile where
  partition : List Literal
deriving DecidableEq

/-- One manifest entry: a status and the registered data file. -/
structure ManifestEntry where
  status : ManifestStatus
  data_file : DataFile
deriving DecidableEq

/-- Manifest-level metadata; `list_partitions` reads its partition spec id. -/
structure ManifestMetadata where
  partition_spec : PartitionSpec
deriving DecidableEq

/-- A decoded manifest: its entries together with its metadata
(the two components of `Manifest::into_parts`). -/
structure Manifest where
  entries : List ManifestEntry
  metadata : ManifestMetadata
deriving DecidableEq

deriving instance DecidableEq for Except

/-- A manifest-list entry.  `load_manifest` models the async, fallible fetch
and decode of the manifest file's bytes. -/
structure ManifestFile where
  load_manifest : Except String Manifest
deriving DecidableEq

/-- The manifest list of one snapshot. -/
structure ManifestList where
  entries : List ManifestFile
deriving DecidableEq

/-- A snapshot; `load_manifest_list` models the fallible fetch and decode of
its manifest list. -/
structure Snapshot where
  load_manifest_list : Except String ManifestList
deriving DecidableEq

/-- Table metadata: partition-spec history, optional current snapshot, and
the current schema (only its printed form matters here). -/
structure TableMetadata where
  partition_specs : List PartitionSpec
  current_snapshot : Option Snapshot
  current_schema : String
deriving DecidableEq

/-- `TableMetadata::partition_spec_by_id`: look up a spec in the history. -/
def TableMetadata.partition_spec_by_id (md : TableMetadata) (id : Int) :
    Option PartitionSpec :=
  md.partition_specs.find? (fun s => s.spec_id == id)

/-- A loaded table, with the fields printed by `load_table`. -/
structure Table where
  metadata : TableMetadata
  namespace_join : String
  name : String
  last_updated : String
  minutes_ago : Int
  format_version : Nat
  metadata_location : String

/-- The TOML configuration (`struct Config`). -/
structure Config where
  access_key_id : String
  secret_access_key : String
  session_token : String
  region : String
  warehouse : String
  namespace_name : String
  table : String

/-- The aggregate: `HashMap<i32, Vec<HashSet<Literal>>>`, modelled as an
insertion-ordered association list from spec id to per-field distinct sets. -/
abbrev Aggregate : Type := List (Int × List (Finset Literal))

/-- Association-list lookup, modelling `HashMap::get` / the occupied case of
`HashMap::entry`. -/
def alistLookup (map : Aggregate) (k : Int) : Option (List (Finset Literal)) :=
  (map.find? (fun p => p.1 == k)).map (fun p => p.2)

/-- Association-list update (replace the value at `k`, or append a new
binding), modelling the map after `entry(k).or_insert_with` plus in-place
mutation of the value. -/
def alistSet (map : Aggregate) (k : Int) (v : List (Finset Literal)) : Aggregate :=
  match map with
  | [] => [(k, v)]
  | p :: rest => if p.1 == k then (k, v) :: rest else p :: alistSet rest k v

/-- The inner loop of lines 136–143: for `(field_id, partition_value)` in
`entry.data_file().partition().fields().iter().enumerate()` starting at
index `i`, do `m.get_mut(field_id).unwrap().insert(partition_value)`.
`none` models the `unwrap` panic when the tuple overruns the set vector. -/
def insertFields (m : List (Finset Literal)) (vals : List Literal) (i : Nat) :
    Option (List (Finset Literal)) :=
  match vals with
  | [] => some m
  | v :: rest =>
    match m[i]? with
    | none => none
    | some s => insertFields (m.set i (insert v s)) rest (i + 1)

/-- Processing of one manifest entry (lines 129–144): a `Deleted` entry is
skipped; otherwise its partition values are inserted positionally. -/
def processEntry (m : List (Finset Literal)) (entry : ManifestEntry) :
    Option (List (Finset Literal)) :=
  if entry.status = ManifestStatus.deleted then some m
  else insertFields m entry.data_file.partition 0

/-- The `for entry in entries.iter()` loop. -/
def processEntries (m : List (Finset Literal)) :
    List ManifestEntry → Option (List (Finset Literal))
  | [] => some m
  | e :: rest =>
    match processEntry m e with
    | none => none
    | some m2 => processEntries m2 rest

/-- Result of a step that may early-return via `try_ok!` or panic. -/
inductive StepResult (α : Type) where
  | ok (a : α) : StepResult α
  | tryErr (msg : String) : StepResult α
  | panicked : StepResult α
deriving DecidableEq

/-- The body of the manifest loop (lines 106–145) for one manifest file:
load it (`try_ok!`), find or create the per-field set vector for its spec id
(`entry().or_insert_with`, where the metadata lookup `unwrap` can panic), and
fold its entries into that vector. -/
def processManifest (md : TableMetadata) (map : Aggregate) (mf : ManifestFile) :
    StepResult Aggregate :=
  match mf.load_manifest with
  | .error e => .tryErr ("Failed to load manifest file: " ++ e)
  | .ok manifest =>
    let current_partition_spec_id := manifest.metadata.partition_spec.spec_id
    match alistLookup map current_partition_spec_id with
    | some m =>
      match processEntries m manifest.entries with
      | none => .panicked
      | some m2 => .ok (alistSet map current_partition_spec_id m2)
    | none =>
      match md.partition_spec_by_id current_partition_spec_id with
      | none => .panicked
      | some spec =>
        match processEntries (List.replicate spec.fields.length (∅ : Finset Literal))
            manifest.entries with
        | none => .panicked
        | some m2 => .ok (alistSet map current_partition_spec_id m2)

/-- The manifest loop over the (truncated) manifest list. -/
def processManifests (md : TableMetadata) (map : Aggregate) :
    List ManifestFile → StepResult Aggregate
  | [] => .ok map
  | mf :: rest =>
    match processManifest md map mf with
    | .ok map2 => processManifests md map2 rest
    | .tryErr msg => .tryErr msg
    | .panicked => .panicked

/-- Rust's `{:<20}` formatting: left-align, pad with spaces to width 20. -/
def pad20 (s : String) : String :=
  s ++ String.mk (List.replicate (20 - s.length) ' ')

/-- One pipe-delimited report row of four `{:<20}` columns. -/
def row4 (a b c d : String) : String :=
  pad20 a ++ "|" ++ pad20 b ++ "|" ++ pad20 c ++ "|" ++ pad20 d

/-- The row loop of lines 156–170: for `(field_id, field_values)` in
`v.iter().enumerate()` starting at `i`, index `partition_fields[field_id]`
(a panic if out of range, flag `true`) and print one row showing the
field's id, name, debug-formatted transform, and the set's cardinality. -/
def renderRows (fields : List PartitionField) (i : Nat) :
    List (Finset Literal) → List String × Bool
  | [] => ([], false)
  | s :: rest =>
    match fields[i]? with
    | none => ([], true)
    | some f =>
      let row := row4 (toString f.field_id) f.name f.transform.debugStr
        (toString s.card)
      let res := renderRows fields (i + 1) rest
      (row :: res.1, res.2)

/-- The report loop of lines 148–172: one block per aggregate binding, with
a `partition spec id:` header, a column-header row, the field rows, and a
blank line.  The `Bool` records whether an `unwrap`/indexing panic occurred,
in which case the lines produced before the panic are kept. -/
def renderBlocks (md : TableMetadata) : Aggregate → List String × Bool
  | [] => ([], false)
  | (k, v) :: rest =>
    let head := "partition spec id: " ++ toString k
    match md.partition_spec_by_id k with
    | none => ([head], true)
    | some spec =>
      let colHeader := row4 "id" "name" "transform" "distinct_count"
      let rows := renderRows spec.fields 0 v
      if rows.2 then (head :: colHeader :: rows.1, true)
      else
        let more := renderBlocks md rest
        ((head :: colHeader :: rows.1 ++ [""]) ++ more.1, more.2)

/-- How `list_partitions` terminated: normal return, a `try_ok!` early
return after printing `msg` to stderr, or a panic. -/
inductive Outcome where
  | normal : Outcome
  | earlyReturn (msg : String) : Outcome
  | panicked : Outcome
deriving DecidableEq

/-- Observable result of a `list_partitions` run: the stdout lines it
printed, the final aggregate (empty on abnormal exit, where the local map is
dropped unobserved), and how it terminated. -/
structure PartitionsRun where
  out : List String
  aggregate : Aggregate
  outcome : Outcome
deriving DecidableEq

/-- `list_partitions` (lines 73–173).  No current snapshot returns silently
with nothing printed; a failed manifest-list or manifest load early-returns
via `try_ok!`; otherwise the manifest loop runs over
`manifest_list.entries().iter().take(1)` — only the first manifest — and the
report is printed. -/
def list_partitions (table : Table) : PartitionsRun :=
  match table.metadata.current_snapshot with
  | none => ⟨[], [], .normal⟩
  | some snapshot =>
    match snapshot.load_manifest_list with
    | .error e => ⟨[], [], .earlyReturn ("Failed to load manifest list: " ++ e)⟩
    | .ok manifest_list =>
      match processManifests table.metadata [] (manifest_list.entries.take 1) with
      | .tryErr msg => ⟨[], [], .earlyReturn msg⟩
      | .panicked => ⟨[], [], .panicked⟩
      | .ok partition_map =>
        let rendered := renderBlocks table.metadata partition_map
        if rendered.2 then
          ⟨"Active partitions" :: rendered.1, partition_map, .panicked⟩
        else
          ⟨"Active partitions" :: rendered.1, partition_map, .normal⟩

/-- The lines printed by `load_table` (lines 206–223) on success. -/
def load_table_out (t : Table) : List String :=
  [ "table: " ++ t.namespace_join ++ "." ++ t.name,
    "last updated: " ++ t.last_updated ++ " (" ++ toString t.minutes_ago
      ++ " minutes ago)",
    "version: " ++ toString t.format_version,
    "metadata path: " ++ t.metadata_location,
    "" ]

/-- The line printed by `get_schema` (line 70). -/
def get_schema_out (t : Table) : List String :=
  ["schema: " ++ t.metadata.current_schema]

/-- Process exit code implied by an outcome: a normal or `try_ok!` return
exits 0; a panic aborts with a nonzero code. -/
def exitCodeOf : Outcome → Nat
  | .panicked => 101
  | _ => 0

/-- Stderr lines implied by an outcome (`try_ok!` uses `eprint!`). -/
def stderrOf : Outcome → List String
  | .earlyReturn msg => [msg]
  | _ => []

/-- Observable result of running `main`: stdout, stderr, exit code. -/
structure MainRun where
  stdout : List String
  stderr : List String
  exitCode : Nat
deriving DecidableEq

/-- `main` (lines 52–66): read the config file (`try_ok!`), parse it
(`try_ok!`), load the table (prints table info), print the schema, then run
`list_partitions`.  The two `try_ok!`s print to stderr and return, so the
process still exits 0. -/
def mainRun (read_config : Except String String)
    (parse_config : String → Except String Config)
    (load : Config → Table) : MainRun :=
  match read_config with
  | .error e => ⟨[], ["Failed to read config file from path: " ++ e], 0⟩
  | .ok s =>
    match parse_config s with
    | .error e => ⟨[], ["Failed to parse config: " ++ e], 0⟩
    | .ok config =>
      let table := load config
      let pr := list_partitions table
      ⟨load_table_out table ++ get_schema_out table ++ pr.out,
        stderrOf pr.outcome, exitCodeOf pr.outcome⟩

/-! ### Concrete fixtures for counterexamples and witnesses -/

/-- Spec S1: one field `(id=1000, name="date", transform=Day)`. -/
def specS1 : PartitionSpec := ⟨1, [⟨1000, "date", Transform.day⟩]⟩

/-- Spec S2 (id 2): two partition fields. -/
def specS2 : PartitionSpec :=
  ⟨2, [⟨1000, "date", Transform.day⟩, ⟨1001, "bucket", Transform.bucket 4⟩]⟩

/-- A manifest file under spec S1 with one Added entry carrying one value. -/
def mfS1 (v : Literal) : ManifestFile :=
  ⟨.ok ⟨[⟨ManifestStatus.added, ⟨[v]⟩⟩], ⟨specS1⟩⟩⟩

/-- A table around a given spec history and manifest list. -/
def mkTable (specs : List PartitionSpec) (mfs : List ManifestFile) : Table :=
  ⟨⟨specs, some ⟨.ok ⟨mfs⟩⟩, "sch"⟩, "ns", "t", "2024-01-01", 5, 2, "s3://m"⟩

/-- Distinct counts per spec id, forgetting the set contents. -/
def aggCounts (agg : Aggregate) : List (Int × List Nat) :=
  agg.map (fun p => (p.1, p.2.map Finset.card))

/-- A manifest file under spec S1 with two Added entries carrying distinct
values. -/
def mfS1two : ManifestFile :=
  ⟨.ok ⟨[⟨ManifestStatus.added, ⟨[.intLit 1]⟩⟩,
         ⟨ManifestStatus.added, ⟨[.intLit 2]⟩⟩], ⟨specS1⟩⟩⟩

/-- The spec scenario: two manifests under S1 with distinct Added values. -/
def tableC1 : Table := mkTable [specS1] [mfS1 (.intLit 1), mfS1 (.intLit 2)]

/-- A manifest recorded under a spec id (99) absent from the metadata
history. -/
def mfBadSpec : ManifestFile :=
  ⟨.ok ⟨[⟨ManifestStatus.added, ⟨[.intLit 7]⟩⟩], ⟨⟨99, [⟨1, "x", Transform.identity⟩]⟩⟩⟩⟩

/-- Unknown-spec manifest in second position. -/
def tableC4 : Table := mkTable [specS1] [mfS1 (.intLit 1), mfBadSpec]

/-- A manifest under the two-field spec S2 whose single entry carries a
one-value partition tuple (shorter than the spec's field count). -/
def tableC5 : Table :=
  mkTable [specS2] [⟨.ok ⟨[⟨ManifestStatus.added, ⟨[.intLit 5]⟩⟩], ⟨specS2⟩⟩⟩]

/-- A table whose metadata has no current snapshot. -/
def tableNoSnap : Table :=
  ⟨⟨[specS1], none, "sch"⟩, "ns", "t", "2024-01-01", 5, 2, "s3://m"⟩

/-- Two tables over the same multiset of manifests, in opposite orders. -/
def manifestsC7 : List ManifestFile := [mfS1 (.intLit 1), mfS1two]

def tableC7a : Table := mkTable [specS1] manifestsC7

def tableC7b : Table := mkTable [specS1] manifestsC7.reverse

/-- A table whose current snapshot's manifest list fails to load. -/
def tableFailML : Table :=
  ⟨⟨[specS1], some ⟨.error "io"⟩, "sch"⟩, "ns", "t", "2024-01-01", 5, 2, "s3://m"⟩

/-- A table whose first manifest fails to load. -/
def tableFailMF : Table := mkTable [specS1] [⟨.error "corrupt"⟩, mfS1 (.intLit 1)]

/-- A concrete parsed configuration. -/
def cfgW : Config := ⟨"ak", "sk", "st", "r", "w", "ns", "t"⟩

/-- The C3 invariant: every binding in the aggregate holds exactly as many
per-field sets as the metadata records fields for that spec id. -/
def aggInv (md : TableMetadata) (map : Aggregate) : Prop :=
  ∀ p ∈ map, (md.partition_spec_by_id p.1).map (fun spec => spec.fields.length) =
    some p.2.length

/-- Modelled from the spec: one report row shows the field's id, name,
transform kind, and the cardinality (not the values) of its distinct set. -/
def specRenderRow (f : PartitionField) (s : Finset Literal) : String :=
  row4 (toString f.field_id) f.name f.transform.debugStr (toString s.card)

/-- Modelled from the spec: a block is preceded by a `partition spec id:`
header line, then the pipe-delimited column-header row, then one row per
partition field paired positionally with its distinct set. -/
def specRenderBlock (spec : PartitionSpec) (k : Int)
    (sets : List (Finset Literal)) : List String :=
  ("partition spec id: " ++ toString k)
    :: row4 "id" "name" "transform" "distinct_count"
    :: ((spec.fields.zip sets).map (fun p => specRenderRow p.1 p.2) ++ [""])

/-- Modelled from the spec: the report is one block per partition-spec id
present in the aggregate. -/
def specRender (md : TableMetadata) (agg : Aggregate) : List String :=
  (agg.map (fun p =>
    match md.partition_spec_by_id p.1 with
    | some spec => specRenderBlock spec p.1 p.2
    | none => [])).flatten

/-- Metadata fixture used by the invariant witness. -/
def mdW : TableMetadata := ⟨[specS1], none, "sch"⟩

/-- The aggregate produced by one S1 manifest, used by the invariant
witness. -/
def aggW : Aggregate :=
  match processManifests mdW [] [mfS1 (.intLit 1)] with
  | .ok m => m
  | _ => []

/-- Aggregate fixture for the renderer witness. -/
def aggC9 : Aggregate := [(1, [{Literal.intLit 1}])]

/-! ### Lemmas about entry processing -/

theorem insertFields_length (vals : List Literal) :
    ∀ (m m2 : List (Finset Literal)) (i : Nat),
      insertFields m vals i = some m2 → m2.length = m.length := by
  induction vals with
  | nil =>
    intro m m2 i h
    simp only [insertFields, Option.some.injEq] at h
    rw [h]
  | cons v rest ih =>
    intro m m2 i h
    cases hm : m[i]? with
    | none => simp [insertFields, hm] at h
    | some s =>
      simp only [insertFields, hm] at h
      have := ih (m.set i (insert v s)) m2 (i + 1) h
      simpa using this

theorem insertFields_eq_none_iff (vals : List Literal) :
    ∀ (m : List (Finset Literal)) (i : Nat),
      insertFields m vals i = none ↔ (vals ≠ [] ∧ m.length < i + vals.length) := by
  induction vals with
  | nil => intro m i; simp [insertFields]
  | cons v rest ih =>
    intro m i
    by_cases hi : i < m.length
    · simp only [insertFields, List.getElem?_eq_getElem hi]
      rw [ih (m.set i (insert v (m[i]))) (i + 1)]
      simp only [List.length_set, List.length_cons]
      constructor
      · rintro ⟨_, hlt⟩
        exact ⟨by simp, by omega⟩
      · rintro ⟨_, hlt⟩
        refine ⟨?_, by omega⟩
        intro hrest
        rw [hrest] at hlt
        simp at hlt
        omega
    · have hle : m.length ≤ i := by omega
      simp only [insertFields, List.getElem?_eq_none hle, List.length_cons]
      constructor
      · intro _
        exact ⟨by simp, by omega⟩
      · intro _
        trivial

theorem processEntry_length (m m2 : List (Finset Literal)) (e : ManifestEntry)
    (h : processEntry m e = some m2) : m2.length = m.length := by
  unfold processEntry at h
  split at h
  · simp only [Option.some.injEq] at h
    rw [← h]
  · exact insertFields_length _ _ _ _ h

theorem processEntries_length (entries : List ManifestEntry) :
    ∀ (m m2 : List (Finset Literal)),
      processEntries m entries = some m2 → m2.length = m.length := by
  induction entries with
  | nil =>
    intro m m2 h
    simp only [processEntries, Option.some.injEq] at h
    rw [h]
  | cons e rest ih =>
    intro m m2 h
    cases he : processEntry m e with
    | none => simp [processEntries, he] at h
    | some m1 =>
      simp only [processEntries, he] at h
      have h1 := processEntry_length m m1 e he
      have h2 := ih m1 m2 h
      omega

/-- C2: deleted entries never contribute — folding a manifest's entries
gives the same result as folding only its non-deleted entries. -/
theorem c2_deleted_entries_excluded (entries : List ManifestEntry) :
    ∀ m : List (Finset Literal),
      processEntries m entries =
        processEntries m
          (entries.filter (fun e => e.status != ManifestStatus.deleted)) := by
  induction entries with
  | nil => intro m; rfl
  | cons e rest ih =>
    intro m
    by_cases hd : e.status = ManifestStatus.deleted
    · have hf : (e.status != ManifestStatus.deleted) = false := by simp [hd]
      have he : processEntry m e = some m := by simp [processEntry, hd]
      simp only [List.filter_cons, hf, Bool.false_eq_true, if_false,
        processEntries, he]
      exact ih m
    · have hf : (e.status != ManifestStatus.deleted) = true := by simp [hd]
      simp only [List.filter_cons, hf, if_true, processEntries]
      cases he : processEntry m e with
      | none => rfl
      | some m1 => exact ih m1

/-- C5 (amended): processing a non-deleted entry panics exactly when its
partition tuple is longer than the per-field set vector; a shorter tuple is
accepted without an error. -/
theorem c5_amended_overlong_tuple_panics (m : List (Finset Literal))
    (e : ManifestEntry) :
    processEntry m e = none ↔
      (e.status ≠ ManifestStatus.deleted ∧
        m.length < e.data_file.partition.length) := by
  unfold processEntry
  by_cases hd : e.status = ManifestStatus.deleted
  · simp [hd]
  · rw [if_neg hd, insertFields_eq_none_iff]
    constructor
    · rintro ⟨_, hlt⟩
      exact ⟨hd, by omega⟩
    · rintro ⟨_, hlt⟩
      refine ⟨?_, by omega⟩
      intro hnil
      rw [hnil] at hlt
      simp at hlt

/-! ### Aggregate invariant -/

theorem alistLookup_inv (md : TableMetadata) (map : Aggregate) (k : Int)
    (v : List (Finset Literal)) (hinv : aggInv md map)
    (h : alistLookup map k = some v) :
    (md.partition_spec_by_id k).map (fun spec => spec.fields.length) =
      some v.length := by
  unfold alistLookup at h
  cases hf : map.find? (fun p => p.1 == k) with
  | none => rw [hf] at h; simp at h
  | some pr =>
    rw [hf] at h
    simp only [Option.map_some', Option.some.injEq] at h
    have hmem := List.mem_of_find?_eq_some hf
    have hbeq := List.find?_some hf
    have hk : pr.1 = k := by simpa using hbeq
    have hp := hinv pr hmem
    rw [hk] at hp
    rw [← h]
    exact hp

theorem mem_alistSet (map : Aggregate) (k : Int) (v : List (Finset Literal)) :
    ∀ p, p ∈ alistSet map k v → p = (k, v) ∨ p ∈ map := by
  induction map with
  | nil =>
    intro p hp
    simp [alistSet] at hp
    exact Or.inl hp
  | cons q rest ih =>
    intro p hp
    simp only [alistSet] at hp
    split at hp
    · rcases List.mem_cons.mp hp with h | h
      · exact Or.inl h
      · exact Or.inr (List.mem_cons_of_mem q h)
    · rcases List.mem_cons.mp hp with h | h
      · exact Or.inr (by rw [h]; exact List.mem_cons_self q rest)
      · rcases ih p h with h2 | h2
        · exact Or.inl h2
        · exact Or.inr (List.mem_cons_of_mem q h2)

theorem aggInv_alistSet (md : TableMetadata) (map : Aggregate) (k : Int)
    (v : List (Finset Literal)) (hinv : aggInv md map)
    (hk : (md.partition_spec_by_id k).map (fun spec => spec.fields.length) =
      some v.length) :
    aggInv md (alistSet map k v) := by
  intro p hp
  rcases mem_alistSet map k v p hp with h | h
  · rw [h]
    exact hk
  · exact hinv p h

theorem aggInv_processManifest (md : TableMetadata) (map map2 : Aggregate)
    (mf : ManifestFile) (hinv : aggInv md map)
    (h : processManifest md map mf = .ok map2) : aggInv md map2 := by
  cases hl : mf.load_manifest with
  | error e => simp [processManifest, hl] at h
  | ok manifest =>
    cases hlook : alistLookup map manifest.metadata.partition_spec.spec_id with
    | some m =>
      cases hpe : processEntries m manifest.entries with
      | none => simp [processManifest, hl, hlook, hpe] at h
      | some m2 =>
        simp only [processManifest, hl, hlook, hpe, StepResult.ok.injEq] at h
        have hlen := processEntries_length manifest.entries m m2 hpe
        have hfact := alistLookup_inv md map _ m hinv hlook
        rw [← h]
        refine aggInv_alistSet md map _ m2 hinv ?_
        rw [hlen]
        exact hfact
    | none =>
      cases hspec : md.partition_spec_by_id manifest.metadata.partition_spec.spec_id with
      | none => simp [processManifest, hl, hlook, hspec] at h
      | some spec =>
        cases hpe : processEntries
            (List.replicate spec.fields.length (∅ : Finset Literal))
            manifest.entries with
        | none => simp [processManifest, hl, hlook, hspec, hpe] at h
        | some m2 =>
          simp only [processManifest, hl, hlook, hspec, hpe,
            StepResult.ok.injEq] at h
          have hlen := processEntries_length manifest.entries _ m2 hpe
          simp only [List.length_replicate] at hlen
          rw [← h]
          refine aggInv_alistSet md map _ m2 hinv ?_
          rw [hspec, hlen]
          rfl

/-- C3: processing any sequence of manifests preserves the invariant that
each spec id present in the aggregate maps to exactly as many distinct-value
sets as that spec has fields in the table metadata; the vector is sized at
first encounter and never resized. -/
theorem c3_field_count_invariant (md : TableMetadata) (mfs : List ManifestFile) :
    ∀ (map map2 : Aggregate), aggInv md map →
      processManifests md map mfs = .ok map2 → aggInv md map2 := by
  induction mfs with
  | nil =>
    intro map map2 hinv h
    simp only [processManifests, StepResult.ok.injEq] at h
    rw [← h]
    exact hinv
  | cons mf rest ih =>
    intro map map2 hinv h
    cases hpm : processManifest md map mf with
    | ok map1 =>
      simp only [processManifests, hpm] at h
      exact ih map1 map2 (aggInv_processManifest md map map1 mf hinv hpm) h
    | tryErr msg => simp [processManifests, hpm] at h
    | panicked => simp [processManifests, hpm] at h

/-- Witness for C3 at a concrete one-manifest run. -/
theorem c3_witness : aggInv mdW aggW :=
  c3_field_count_invariant mdW [mfS1 (.intLit 1)] [] aggW
    (by intro p hp; cases hp) (by rfl)

/-! ### Truncation and concrete behaviours -/

/-- C1: on the spec's own scenario (two manifests under S1 with distinct
Added values), the code's `take(1)` processes only the first manifest, so
field 0 of spec 1 ends with distinct_count 1 instead of the required 2, and
the run still terminates normally. -/
theorem c1_truncated_to_first_manifest :
    aggCounts (list_partitions tableC1).aggregate = [(1, [1])] ∧
      (list_partitions tableC1).outcome = Outcome.normal := by
  constructor
  · rfl
  · rfl

/-- C4: a manifest recorded under spec id 99, absent from the metadata
history, sits in second position; because of the `take(1)` truncation it is
never looked up, so the run completes normally instead of surfacing a fatal
error. -/
theorem c4_unknown_spec_silently_ignored :
    tableC4.metadata.partition_spec_by_id 99 = none ∧
      (list_partitions tableC4).outcome = Outcome.normal ∧
      aggCounts (list_partitions tableC4).aggregate = [(1, [1])] := by
  refine ⟨rfl, rfl, rfl⟩

/-- C5 counterexample: an entry under the two-field spec S2 carries a
one-value partition tuple — a field-count mismatch — yet the run completes
normally, silently leaving the second set empty. -/
theorem c5_counterexample_short_tuple_accepted :
    (list_partitions tableC5).outcome = Outcome.normal ∧
      aggCounts (list_partitions tableC5).aggregate = [(2, [1, 0])] := by
  refine ⟨rfl, rfl⟩

/-- C7: the two runs fold the same multiset of manifests (one list is the
reverse of the other) yet produce different distinct counts, because only
the first manifest of the list is processed. -/
theorem c7_counterexample_order_dependent :
    tableC7b.metadata.current_snapshot = some ⟨.ok ⟨manifestsC7.reverse⟩⟩ ∧
      aggCounts (list_partitions tableC7a).aggregate ≠
        aggCounts (list_partitions tableC7b).aggregate := by
  refine ⟨rfl, by decide⟩

/-- C6: a table metadata without a current snapshot is not an error: the run
returns normally with an empty aggregate and no output at all (in
particular, no partition-spec blocks). -/
theorem c6_no_snapshot_empty_report (t : Table)
    (h : t.metadata.current_snapshot = none) :
    list_partitions t = ⟨[], [], Outcome.normal⟩ := by
  unfold list_partitions
  rw [h]

/-- Witness for C6 at a concrete snapshot-less table. -/
theorem c6_witness : list_partitions tableNoSnap = ⟨[], [], Outcome.normal⟩ :=
  c6_no_snapshot_empty_report tableNoSnap rfl

/-! ### Failure propagation -/

/-- C8: a failed fetch/decode of the manifest list, or of the manifest file
the pass loads, early-returns with the error reported and nothing written to
standard output — no partial report is ever emitted. -/
theorem c8_fetch_failure_fatal_no_report (t : Table) (s : Snapshot)
    (hs : t.metadata.current_snapshot = some s) :
    (∀ e, s.load_manifest_list = .error e →
      list_partitions t =
        ⟨[], [], Outcome.earlyReturn ("Failed to load manifest list: " ++ e)⟩)
    ∧ ∀ l mf rest e, s.load_manifest_list = .ok l → l.entries = mf :: rest →
        mf.load_manifest = .error e →
        list_partitions t =
          ⟨[], [], Outcome.earlyReturn ("Failed to load manifest file: " ++ e)⟩ := by
  constructor
  · intro e he
    simp [list_partitions, hs, he]
  · intro l mf rest e hl hent hmf
    simp [list_partitions, hs, hl, hent, List.take, processManifests,
      processManifest, hmf]

/-- Witness for C8: a concrete table whose manifest-list fetch fails. -/
theorem c8_witness :
    list_partitions tableFailML =
      ⟨[], [], Outcome.earlyReturn "Failed to load manifest list: io"⟩ :=
  (c8_fetch_failure_fatal_no_report tableFailML ⟨.error "io"⟩ rfl).1 "io" rfl

/-! ### Report rendering -/

theorem renderRows_eq_zip (fields : List PartitionField) :
    ∀ (v : List (Finset Literal)) (i : Nat), fields.length = i + v.length →
      renderRows fields i v =
        (((fields.drop i).zip v).map (fun p => specRenderRow p.1 p.2), false) := by
  intro v
  induction v with
  | nil =>
    intro i h
    simp only [List.length_nil] at h
    rw [List.drop_eq_nil_of_le (by omega)]
    rfl
  | cons s rest ih =>
    intro i h
    have hi : i < fields.length := by
      simp only [List.length_cons] at h
      omega
    rw [List.drop_eq_getElem_cons hi, List.zip_cons_cons, List.map_cons]
    simp only [renderRows, List.getElem?_eq_getElem hi]
    rw [ih (i + 1) (by simp only [List.length_cons] at h; omega)]
    simp [specRenderRow]

/-- C9: the report loop refines the spec's description of the output.  Every
column is padded to a minimum width of 20 characters, and, for any aggregate
satisfying the field-count invariant, the rendered report is exactly one
block per spec id in the aggregate: a `partition spec id: <id>` header, a
pipe-delimited `id | name | transform | distinct_count` column header, and
one row per field showing the cardinality of that field's distinct set. -/
theorem c9_report_refines_spec :
    (∀ s : String, 20 ≤ (pad20 s).length) ∧
      ∀ (md : TableMetadata) (agg : Aggregate), aggInv md agg →
        renderBlocks md agg = (specRender md agg, false) := by
  constructor
  · intro s
    have h1 : (pad20 s).length =
        s.length + (String.mk (List.replicate (20 - s.length) ' ')).length :=
      String.length_append ..
    have h2 : (String.mk (List.replicate (20 - s.length) ' ')).length =
        20 - s.length := by
      show (List.replicate (20 - s.length) ' ').length = _
      exact List.length_replicate ..
    omega
  · intro md agg
    induction agg with
    | nil => intro _; simp [renderBlocks, specRender]
    | cons p rest ih =>
      intro hinv
      obtain ⟨k, v⟩ := p
      have hk := hinv (k, v) (by simp)
      cases hopt : md.partition_spec_by_id k with
      | none => rw [hopt] at hk; simp at hk
      | some spec =>
        rw [hopt] at hk
        simp only [Option.map_some', Option.some.injEq] at hk
        have hrows := renderRows_eq_zip spec.fields v 0 (by omega)
        have hrest : aggInv md rest := fun q hq => hinv q (List.mem_cons_of_mem _ hq)
        simp only [renderBlocks, specRender, List.map_cons, List.flatten_cons,
          hopt, hrows, ih hrest]
        simp [specRenderBlock, specRender]

/-- Witness for C9 at a concrete one-spec aggregate. -/
theorem c9_witness : renderBlocks mdW aggC9 = (specRender mdW aggC9, false) :=
  c9_report_refines_spec.2 mdW aggC9 (by unfold aggInv; decide)

/-! ### Exit behaviour of main -/

theorem listPartitions_earlyReturn_out (t : Table) (msg : String)
    (h : (list_partitions t).outcome = Outcome.earlyReturn msg) :
    (list_partitions t).out = [] := by
  unfold list_partitions at h ⊢
  cases hs : t.metadata.current_snapshot with
  | none => simp [hs] at h
  | some s =>
    cases hml : s.load_manifest_list with
    | error e => simp [hs, hml]
    | ok ml =>
      cases hpm : processManifests t.metadata [] (ml.entries.take 1) with
      | ok map =>
        simp only [hs, hml, hpm] at h ⊢
        cases hr : (renderBlocks t.metadata map).2 <;> simp [hr] at h
      | tryErr m => simp [hs, hml, hpm]
      | panicked => simp [hs, hml, hpm] at h

/-- C10: each of the four `try_ok!` failure sites (config read, config
parse, manifest-list load, manifest load — the latter two summarised by the
run's outcome being an early return) prints its message to standard error
and returns normally: the process exits with code 0, and everything already
printed (table info and schema, when reached) stays on standard output,
with no partition output after it. -/
theorem c10_try_ok_exits_zero :
    (∀ e parse load, mainRun (Except.error e) parse load =
      ⟨[], ["Failed to read config file from path: " ++ e], 0⟩)
    ∧ (∀ s e parse load, parse s = Except.error e →
        mainRun (Except.ok s) parse load =
          ⟨[], ["Failed to parse config: " ++ e], 0⟩)
    ∧ ∀ s cfg msg parse load, parse s = Except.ok cfg →
        (list_partitions (load cfg)).outcome = Outcome.earlyReturn msg →
        mainRun (Except.ok s) parse load =
          ⟨load_table_out (load cfg) ++ get_schema_out (load cfg), [msg], 0⟩ := by
  refine ⟨fun e parse load => rfl, ?_, ?_⟩
  · intro s e parse load hp
    simp [mainRun, hp]
  · intro s cfg msg parse load hp ho
    simp [mainRun, hp, ho, listPartitions_earlyReturn_out _ _ ho,
      stderrOf, exitCodeOf]

/-- Witness for C10: config parses, the manifest-list fetch fails, the run
exits 0 with table info and schema still printed. -/
theorem c10_witness :
    mainRun (Except.ok "cfg") (fun _ => Except.ok cfgW) (fun _ => tableFailML) =
      ⟨load_table_out tableFailML ++ get_schema_out tableFailML,
        ["Failed to load manifest list: io"], 0⟩ :=
  c10_try_ok_exits_zero.2.2 "cfg" cfgW "Failed to load manifest list: io"
    (fun _ => Except.ok cfgW) (fun _ => tableFailML) rfl rfl
